import Mathlib

/-!
Verification of the Memory Extraction & Reconciliation Engine
(src/memory-api/main.py) against its specification.

The development shallowly embeds the engine:

* JSON values produced by the model response are an inductive type.
  Integer numbers are exact; fractional and exponent numbers are kept as
  a signed decimal significand and exponent and rendered with Python's
  float formatting rules; NaN and the infinities are their own values.
* Python string rendering (str), truthiness, json.dumps with its default
  ensure_ascii behaviour, str.strip, str.split and str.find or rfind are
  embedded as executable functions over code-point lists.
* The PostgreSQL store (table chat_memory) is a list of records plus a
  fresh-id counter; SQL statements become list transformations; ILIKE is
  a pattern matcher over lower-cased code points in which the percent
  sign (37) matches any sequence, the underscore (95) any one character,
  and the backslash (92) escapes the next pattern character.
* Fallible effects (the gateway call, store availability, statement
  parameter typing) are Except values.
-/

/-- Character constants kept as named code points. -/
def quoteC : Char := Char.ofNat 34

def squoteC : Char := Char.ofNat 39

def backslashC : Char := Char.ofNat 92

def lbraceC : Char := Char.ofNat 123

def rbraceC : Char := Char.ofNat 125

/-- JSON values as parsed by json.loads. A number without fraction or
exponent part is an exact integer (num). Any other number becomes fnum:
sign, the significant decimal digits of the literal (no leading or
trailing zeros, empty for zero) and the adjusted exponent, denoting
sign * 0.d1d2... * 10^(adjExp+1); this models the double the program
holds through the decimal the literal denotes, which renders identically
whenever the literal is a shortest representation of its double within
range (the common case; literals beyond double range or with more
significant digits than their shortest form render differently). The
json module's default constants NaN, Infinity and -Infinity are fnan and
finf. -/
inductive JsonValue where
  | null
  | bool (b : Bool)
  | num (n : Int)
  | fnum (neg : Bool) (sig : List Nat) (adjExp : Int)
  | fnan
  | finf (neg : Bool)
  | str (s : String)
  | arr (elems : List JsonValue)
  | obj (fields : List (String × JsonValue))

/-- Lower-case an ASCII code point, as PostgreSQL lower() does under the
C locale used by the ILIKE comparisons of the engine. -/
def lowerN (n : Nat) : Nat := if 65 ≤ n ∧ n ≤ 90 then n + 32 else n

/-- Code points of a string. -/
def strCodes (s : String) : List Nat := s.data.map Char.toNat

/-- Lower-cased code points of a string. -/
def lowerCodes (s : String) : List Nat := (strCodes s).map lowerN

/-- Literal-prefix test: the first list is a prefix of the second. -/
def litPre [BEq α] : List α → List α → Bool
  | [], _ => true
  | _ :: _, [] => false
  | c :: t, a :: s => a == c && litPre t s

/-- Substring occurrence: the first list occurs contiguously in the
second. -/
def subOccurs [BEq α] (t s : List α) : Bool := s.tails.any (fun b => litPre t b)

/-- SQL LIKE pattern matching over code points. 37 is the percent sign
and matches any sequence, 95 is the underscore and matches any single
character, 92 is the backslash and escapes the following pattern
character; a trailing lone backslash matches nothing (PostgreSQL raises
for such patterns). -/
def likeMatch : List Nat → List Nat → Bool
  | [], s => s.isEmpty
  | c :: p, s =>
    if c = 37 then s.tails.any (fun t => likeMatch p t)
    else if c = 95 then
      match s with
      | [] => false
      | _ :: s' => likeMatch p s'
    else if c = 92 then
      match p with
      | [] => false
      | d :: p' =>
        match s with
        | [] => false
        | a :: s' => a == d && likeMatch p' s'
    else
      match s with
      | [] => false
      | a :: s' => a == c && likeMatch p s'

/-- PostgreSQL ILIKE: LIKE after lower-casing both pattern and subject. -/
def ilike (pat s : String) : Bool :=
  likeMatch ((strCodes pat).map lowerN) (lowerCodes s)

/-- Case-insensitive substring containment, the reading the specification
gives for fuzzy deletion: the search term occurs in the subject after
lower-casing both. This is the specification-side notion, compared in the
theorems with the ILIKE matching the code performs. -/
def specContainsCI (t s : String) : Bool := subOccurs (lowerCodes t) (lowerCodes s)

/-- A search term with no LIKE metacharacter: no percent sign, no
underscore, no backslash. -/
def noWildcards (s : String) : Bool :=
  (strCodes s).all (fun n => n != 37 && n != 95 && n != 92)

/-- Python truthiness of a JSON value: None, False, 0, empty string,
empty list and empty dict are falsy. -/
def pyTruthy : JsonValue → Bool
  | .null => false
  | .bool b => b
  | .num n => n != 0
  | .fnum _ sig _ => !sig.isEmpty
  | .fnan => true
  | .finf _ => true
  | .str s => !s.isEmpty
  | .arr xs => !xs.isEmpty
  | .obj fs => !fs.isEmpty

/-- Dictionary field lookup. Objects are built with insert-or-replace
during parsing, so the first match is the binding json.loads keeps. -/
def lookupField (fs : List (String × JsonValue)) (k : String) : Option JsonValue :=
  (fs.find? (fun p => p.1 == k)).map (fun p => p.2)

/-- Python dict insertion: replace in place when the name exists, append
otherwise. -/
def insertReplace (fs : List (String × JsonValue)) (k : String) (v : JsonValue) :
    List (String × JsonValue) :=
  if fs.any (fun p => p.1 == k) then
    fs.map (fun p => if p.1 == k then (p.1, v) else p)
  else fs ++ [(k, v)]

/-- Lower-case hexadecimal digit. -/
def hexDigit (k : Nat) : Char :=
  if k < 10 then Char.ofNat (48 + k) else Char.ofNat (87 + k)

/-- Four-digit lower-case hexadecimal rendering, as json.dumps uses in
its backslash-u escapes. -/
def toHex4 (n : Nat) : String :=
  String.mk [hexDigit (n / 4096 % 16), hexDigit (n / 256 % 16),
    hexDigit (n / 16 % 16), hexDigit (n % 16)]

/-- Escape of one character under json.dumps with its default
ensure_ascii=True: printable ASCII other than the quote and the backslash
stays literal, the named control escapes are used, every other character
becomes backslash-u notation, with surrogate pairs above the basic
plane. -/
def jsonEscapeChar (c : Char) : String :=
  let n := c.toNat
  if n = 34 then String.mk [backslashC, quoteC]
  else if n = 92 then String.mk [backslashC, backslashC]
  else if n = 8 then "\\b"
  else if n = 9 then "\\t"
  else if n = 10 then "\\n"
  else if n = 12 then "\\f"
  else if n = 13 then "\\r"
  else if 32 ≤ n ∧ n ≤ 126 then String.mk [c]
  else if n < 65536 then "\\u" ++ toHex4 n
  else
    let m := n - 65536
    "\\u" ++ toHex4 (55296 + m / 1024) ++ "\\u" ++ toHex4 (56320 + m % 1024)

/-- Escape a whole string for json.dumps. -/
def jsonEscape (s : String) : String := String.join (s.data.map jsonEscapeChar)

/-- Decimal digits of a natural number, most significant first. -/
def natDigits (n : Nat) : List Nat := (Nat.repr n).data.map (fun c => c.toNat - 48)

/-- Render a digit list. -/
def digitsStr (ds : List Nat) : String := String.mk (ds.map (fun d => Char.ofNat (48 + d)))

/-- A run of zero digits. -/
def repeatZeros (k : Nat) : String := String.mk (List.replicate k '0')

/-- Python's rendering of a finite float from its significant decimal
digits and adjusted exponent, as repr and str produce it: fixed-point
notation while the adjusted exponent lies in [-4, 16), otherwise
scientific notation with an explicit sign and at least two exponent
digits; zero renders as 0.0, keeping a minus for negative zero. -/
def pyFloatRepr (neg : Bool) (sig : List Nat) (adjExp : Int) : String :=
  let sgn := if neg then "-" else ""
  if sig.isEmpty then sgn ++ "0.0"
  else
    let n := sig.length
    if -4 ≤ adjExp ∧ adjExp < 16 then
      if (n : Int) - 1 ≤ adjExp then
        sgn ++ digitsStr sig ++ repeatZeros (adjExp - ((n : Int) - 1)).toNat ++ ".0"
      else if 0 ≤ adjExp then
        sgn ++ digitsStr (sig.take (adjExp.toNat + 1)) ++ "." ++
          digitsStr (sig.drop (adjExp.toNat + 1))
      else
        sgn ++ "0." ++ repeatZeros ((-adjExp).toNat - 1) ++ digitsStr sig
    else
      let mant :=
        if n == 1 then digitsStr sig
        else digitsStr (sig.take 1) ++ "." ++ digitsStr (sig.drop 1)
      let esign := if adjExp < 0 then "-" else "+"
      let eabs := (if adjExp < 0 then -adjExp else adjExp).toNat
      let estr := if eabs < 10 then "0" ++ Nat.repr eabs else Nat.repr eabs
      sgn ++ mant ++ "e" ++ esign ++ estr

mutual

/-- Serialization performed by json.dumps with default options: item
separator a comma and a space, key separator a colon and a space,
ensure_ascii escaping. This is the text stored in the value column. -/
def jsonDumps : JsonValue → String
  | .null => "null"
  | .bool true => "true"
  | .bool false => "false"
  | .num n => toString n
  | .fnum neg sig x => pyFloatRepr neg sig x
  | .fnan => "NaN"
  | .finf false => "Infinity"
  | .finf true => "-Infinity"
  | .str s => String.mk [quoteC] ++ jsonEscape s ++ String.mk [quoteC]
  | .arr xs => "[" ++ jsonDumpsArr xs ++ "]"
  | .obj fs => "\x7b" ++ jsonDumpsObj fs ++ "\x7d"

/-- Comma-separated serialization of array elements. -/
def jsonDumpsArr : List JsonValue → String
  | [] => ""
  | [v] => jsonDumps v
  | v :: vs => jsonDumps v ++ ", " ++ jsonDumpsArr vs

/-- Comma-separated serialization of object members. -/
def jsonDumpsObj : List (String × JsonValue) → String
  | [] => ""
  | [(k, v)] => String.mk [quoteC] ++ jsonEscape k ++ String.mk [quoteC] ++ ": " ++ jsonDumps v
  | (k, v) :: fs =>
    String.mk [quoteC] ++ jsonEscape k ++ String.mk [quoteC] ++ ": " ++ jsonDumps v ++ ", " ++
      jsonDumpsObj fs

end

/-- Python repr of a string: quote selection (single quotes unless the
string holds a single quote and no double quote), backslash escapes for
the quote, the backslash and the named controls, backslash-x for other
controls. Non-printable classification of exotic code points is
approximated by the control ranges. -/
def pyReprStr (s : String) : String :=
  let hasSq := s.data.any (fun c => c == squoteC)
  let hasDq := s.data.any (fun c => c == quoteC)
  let q := if hasSq && !hasDq then quoteC else squoteC
  let esc := fun (c : Char) =>
    if c == backslashC then String.mk [backslashC, backslashC]
    else if c == q then String.mk [backslashC, q]
    else if c.toNat = 10 then "\\n"
    else if c.toNat = 13 then "\\r"
    else if c.toNat = 9 then "\\t"
    else if c.toNat < 32 ∨ c.toNat = 127 then
      "\\x" ++ String.mk [hexDigit (c.toNat / 16), hexDigit (c.toNat % 16)]
    else String.mk [c]
  String.mk [q] ++ String.join (s.data.map esc) ++ String.mk [q]

mutual

/-- Python repr of a JSON-derived value. -/
def pyRepr : JsonValue → String
  | .null => "None"
  | .bool true => "True"
  | .bool false => "False"
  | .num n => toString n
  | .fnum neg sig x => pyFloatRepr neg sig x
  | .fnan => "nan"
  | .finf false => "inf"
  | .finf true => "-inf"
  | .str s => pyReprStr s
  | .arr xs => "[" ++ pyReprArr xs ++ "]"
  | .obj fs => "\x7b" ++ pyReprObj fs ++ "\x7d"

/-- Comma-separated repr of list items. -/
def pyReprArr : List JsonValue → String
  | [] => ""
  | [v] => pyRepr v
  | v :: vs => pyRepr v ++ ", " ++ pyReprArr vs

/-- Comma-separated repr of dict items. -/
def pyReprObj : List (String × JsonValue) → String
  | [] => ""
  | [(k, v)] => pyReprStr k ++ ": " ++ pyRepr v
  | (k, v) :: fs => pyReprStr k ++ ": " ++ pyRepr v ++ ", " ++ pyReprObj fs

end

/-- Python str of a JSON-derived value: a string renders as itself, any
other value as its repr. -/
def pyStr : JsonValue → String
  | .str s => s
  | v => pyRepr v

/-- JSON insignificant whitespace. -/
def isJsonWs (c : Char) : Bool := c == ' ' || c == '\t' || c == '\n' || c.toNat == 13

/-- Drop leading JSON whitespace. -/
def skipWs (cs : List Char) : List Char := cs.dropWhile isJsonWs

/-- Value of one hexadecimal digit. -/
def hexVal (c : Char) : Option Nat :=
  if 48 ≤ c.toNat ∧ c.toNat ≤ 57 then some (c.toNat - 48)
  else if 97 ≤ c.toNat ∧ c.toNat ≤ 102 then some (c.toNat - 87)
  else if 65 ≤ c.toNat ∧ c.toNat ≤ 70 then some (c.toNat - 55)
  else none

/-- Value of a four-digit hexadecimal escape. -/
def hex4 (h1 h2 h3 h4 : Char) : Option Nat := do
  let a ← hexVal h1
  let b ← hexVal h2
  let c ← hexVal h3
  let d ← hexVal h4
  pure (a * 4096 + b * 256 + c * 16 + d)

/-- Body of a JSON string after its opening quote: returns the decoded
characters and the input after the closing quote. Unescaped control
characters are rejected as json.loads does in strict mode; a surrogate
escape pair is combined into the character it encodes; an unpaired
surrogate escape is accepted as json.loads accepts it, and since a
surrogate code point has no scalar-value representation it is kept as
the replacement character U+FFFD. The normalization only renames a code
point inside the decoded text: acceptance, string length and every
comparison the engine makes against its surrogate-free constants are
unchanged by it. -/
def parseStrBody : Nat → List Char → Option (List Char × List Char)
  | 0, _ => none
  | fuel + 1, cs =>
    match cs with
    | [] => none
    | c :: rest =>
      if c == quoteC then some ([], rest)
      else if c == backslashC then
        match rest with
        | 'u' :: h1 :: h2 :: h3 :: h4 :: rest2 =>
          match hex4 h1 h2 h3 h4 with
          | none => none
          | some n =>
            if n < 55296 ∨ 57343 < n then
              (parseStrBody fuel rest2).map (fun p => (Char.ofNat n :: p.1, p.2))
            else if n < 56320 then
              match rest2 with
              | b1 :: 'u' :: g1 :: g2 :: g3 :: g4 :: rest3 =>
                if b1 == backslashC then
                  match hex4 g1 g2 g3 g4 with
                  | some m =>
                    if 56320 ≤ m ∧ m ≤ 57343 then
                      let code := 65536 + (n - 55296) * 1024 + (m - 56320)
                      (parseStrBody fuel rest3).map (fun p => (Char.ofNat code :: p.1, p.2))
                    else
                      (parseStrBody fuel rest2).map (fun p => (Char.ofNat 65533 :: p.1, p.2))
                  | none =>
                    (parseStrBody fuel rest2).map (fun p => (Char.ofNat 65533 :: p.1, p.2))
                else
                  (parseStrBody fuel rest2).map (fun p => (Char.ofNat 65533 :: p.1, p.2))
              | _ =>
                (parseStrBody fuel rest2).map (fun p => (Char.ofNat 65533 :: p.1, p.2))
            else
              (parseStrBody fuel rest2).map (fun p => (Char.ofNat 65533 :: p.1, p.2))
        | e :: rest2 =>
          let mapped : Option Char :=
            if e == quoteC then some quoteC
            else if e == backslashC then some backslashC
            else if e == '/' then some '/'
            else if e == 'b' then some (Char.ofNat 8)
            else if e == 'f' then some (Char.ofNat 12)
            else if e == 'n' then some '\n'
            else if e == 'r' then some (Char.ofNat 13)
            else if e == 't' then some '\t'
            else none
          match mapped with
          | some m => (parseStrBody fuel rest2).map (fun p => (m :: p.1, p.2))
          | none => none
        | [] => none
      else if c.toNat < 32 then none
      else (parseStrBody fuel rest).map (fun p => (c :: p.1, p.2))

/-- Digits to a natural number. -/
def digitsToNat (ds : List Char) : Nat :=
  ds.foldl (fun a c => a * 10 + (c.toNat - 48)) 0

/-- Build the value of a number literal: a plain integer stays exact, a
literal with a fraction or exponent part becomes a float value carrying
the canonical significant digits (leading and trailing zeros removed)
and the adjusted exponent of the decimal the literal denotes. -/
def mkNumAtom (neg : Bool) (intDs fracDs : List Char) (isFloat : Bool) (expVal : Int) :
    JsonValue :=
  if !isFloat then
    let n : Int := Int.ofNat (digitsToNat intDs)
    .num (if neg then -n else n)
  else
    let nval := digitsToNat (intDs ++ fracDs)
    if nval = 0 then .fnum neg [] 0
    else
      let rev := (natDigits nval).reverse
      let revStripped := rev.dropWhile (fun d => d == 0)
      let sig := revStripped.reverse
      let t : Nat := rev.length - revStripped.length
      .fnum neg sig
        ((sig.length : Int) - 1 + (expVal - (fracDs.length : Int) + (t : Int)))

/-- Optional exponent part after the digits of a number literal, closing
the literal: an e or E must be followed by an optional sign and at least
one digit; anything else ends the number where it stands. -/
def parseNumTail (neg : Bool) (intDs fracDs : List Char) (hasFrac : Bool) (rest : List Char) :
    Option (JsonValue × List Char) :=
  match rest with
  | e :: r =>
    if e == 'e' || e == 'E' then
      let esign := r.head? == some '-'
      let r2 := if r.head? == some '-' || r.head? == some '+' then r.tail else r
      let eds := r2.takeWhile Char.isDigit
      let r3 := r2.dropWhile Char.isDigit
      if eds.isEmpty then none
      else
        let ev : Int := Int.ofNat (digitsToNat eds)
        some (mkNumAtom neg intDs fracDs true (if esign then -ev else ev), r3)
    else some (mkNumAtom neg intDs fracDs hasFrac 0, rest)
  | [] => some (mkNumAtom neg intDs fracDs hasFrac 0, [])

/-- JSON number literal with the json.loads grammar: optional minus, an
integer part without leading zeros, an optional fraction of at least one
digit, an optional signed exponent of at least one digit. -/
def parseNumber (cs : List Char) : Option (JsonValue × List Char) :=
  let neg := cs.head? == some '-'
  let cs1 := if neg then cs.tail else cs
  match cs1.head? with
  | some c =>
    if c.isDigit then
      let intDs := cs1.takeWhile Char.isDigit
      let rest := cs1.dropWhile Char.isDigit
      if 1 < intDs.length ∧ intDs.head? = some '0' then none
      else
        match rest with
        | '.' :: r =>
          let fracDs := r.takeWhile Char.isDigit
          let rest2 := r.dropWhile Char.isDigit
          if fracDs.isEmpty then none
          else parseNumTail neg intDs fracDs true rest2
        | _ => parseNumTail neg intDs [] false rest
    else none
  | none => none

/-- Partially built container during parsing: an array with the elements
seen so far, or an object with the members seen so far and the name whose
value is being read. -/
inductive PFrame where
  | arrF (acc : List JsonValue)
  | objF (acc : List (String × JsonValue)) (pendingKey : String)

/-- Parser state: about to read a value, or holding a finished value to
be placed into the enclosing container. -/
inductive PMode where
  | expectVal (stack : List PFrame) (cs : List Char)
  | gotVal (stack : List PFrame) (v : JsonValue) (cs : List Char)

/-- One-pass JSON reader with an explicit container stack. Every step
consumes input, so fuel equal to the input length suffices. -/
def parseGo : Nat → PMode → Option (JsonValue × List Char)
  | 0, _ => none
  | fuel + 1, .expectVal stack cs =>
    match cs with
    | [] => none
    | c :: rest =>
      if c == '[' then
        match skipWs rest with
        | ']' :: rest2 => parseGo fuel (.gotVal stack (.arr []) rest2)
        | rest2 => parseGo fuel (.expectVal (.arrF [] :: stack) rest2)
      else if c == lbraceC then
        match skipWs rest with
        | d :: rest2 =>
          if d == rbraceC then parseGo fuel (.gotVal stack (.obj []) rest2)
          else if d == quoteC then
            match parseStrBody fuel rest2 with
            | some (kcs, rest3) =>
              match skipWs rest3 with
              | ':' :: rest4 =>
                parseGo fuel (.expectVal (.objF [] (String.mk kcs) :: stack) (skipWs rest4))
              | _ => none
            | none => none
          else none
        | [] => none
      else if c == quoteC then
        match parseStrBody fuel rest with
        | some (scs, rest2) => parseGo fuel (.gotVal stack (.str (String.mk scs)) rest2)
        | none => none
      else if c == 't' then
        match rest with
        | 'r' :: 'u' :: 'e' :: rest2 => parseGo fuel (.gotVal stack (.bool true) rest2)
        | _ => none
      else if c == 'f' then
        match rest with
        | 'a' :: 'l' :: 's' :: 'e' :: rest2 => parseGo fuel (.gotVal stack (.bool false) rest2)
        | _ => none
      else if c == 'n' then
        match rest with
        | 'u' :: 'l' :: 'l' :: rest2 => parseGo fuel (.gotVal stack .null rest2)
        | _ => none
      else if c == 'N' then
        match rest with
        | 'a' :: 'N' :: rest2 => parseGo fuel (.gotVal stack .fnan rest2)
        | _ => none
      else if c == 'I' then
        match rest with
        | 'n' :: 'f' :: 'i' :: 'n' :: 'i' :: 't' :: 'y' :: rest2 =>
          parseGo fuel (.gotVal stack (.finf false) rest2)
        | _ => none
      else if c == '-' || c.isDigit then
        match rest with
        | 'I' :: 'n' :: 'f' :: 'i' :: 'n' :: 'i' :: 't' :: 'y' :: rest2 =>
          if c == '-' then parseGo fuel (.gotVal stack (.finf true) rest2) else none
        | _ =>
          match parseNumber cs with
          | some (jv, rest2) => parseGo fuel (.gotVal stack jv rest2)
          | none => none
      else none
  | fuel + 1, .gotVal stack v cs =>
    match stack with
    | [] => some (v, cs)
    | .arrF acc :: stack' =>
      match skipWs cs with
      | ',' :: rest => parseGo fuel (.expectVal (.arrF (acc ++ [v]) :: stack') (skipWs rest))
      | ']' :: rest => parseGo fuel (.gotVal stack' (.arr (acc ++ [v])) rest)
      | _ => none
    | .objF acc key :: stack' =>
      match skipWs cs with
      | ',' :: rest =>
        match skipWs rest with
        | d :: rest2 =>
          if d == quoteC then
            match parseStrBody fuel rest2 with
            | some (kcs, rest3) =>
              match skipWs rest3 with
              | ':' :: rest4 =>
                parseGo fuel
                  (.expectVal (.objF (insertReplace acc key v) (String.mk kcs) :: stack')
                    (skipWs rest4))
              | _ => none
            | none => none
          else none
        | [] => none
      | d :: rest =>
        if d == rbraceC then parseGo fuel (.gotVal stack' (.obj (insertReplace acc key v)) rest)
        else none
      | _ => none

/-- json.loads over a character list: parse one value and require only
whitespace after it; any failure is a parse error. -/
def jsonLoadsChars (cs0 : List Char) : Option JsonValue :=
  let cs := skipWs cs0
  match parseGo (cs.length + 1) (.expectVal [] cs) with
  | some (v, rest) => if (skipWs rest).isEmpty then some v else none
  | none => none

/-- Python whitespace stripped by str.strip(): the ASCII whitespace
characters (space, tab, newline, carriage return, vertical tab, form
feed). -/
def isPyWs (c : Char) : Bool :=
  c == ' ' || c == '\t' || c == '\n' || c.toNat == 13 || c.toNat == 11 || c.toNat == 12

/-- str.strip(): drop whitespace from both ends. -/
def pyStrip (cs : List Char) : List Char :=
  (((cs.dropWhile isPyWs).reverse.dropWhile isPyWs).reverse)

/-- Text after the last occurrence of a separator, none when the
separator does not occur. This is what split(sep) followed by taking the
last element yields for a separator without self-overlap. -/
def afterLastOcc (sep : List Char) : List Char → Option (List Char)
  | [] => none
  | c :: cs =>
    match afterLastOcc sep cs with
    | some r => some r
    | none => if litPre sep (c :: cs) then some ((c :: cs).drop sep.length) else none

/-- The closing reasoning delimiter the model may emit. -/
def thinkTag : List Char := "</think>".data

/-- Reasoning-preamble removal: when the closing delimiter occurs, keep
only the stripped text after its last occurrence. -/
def thinkStrip (cs : List Char) : List Char :=
  if subOccurs thinkTag cs then pyStrip ((afterLastOcc thinkTag cs).getD cs) else cs

/-- Index of the first occurrence of a character, with the Python find()
convention of minus one for absence. -/
def findIdxChar (c : Char) : List Char → Int
  | [] => -1
  | a :: rest =>
    if a == c then 0
    else
      let r := findIdxChar c rest
      if r < 0 then -1 else r + 1

/-- Index of the last occurrence, with the rfind() convention of minus
one for absence. -/
def rfindIdxChar (c : Char) (cs : List Char) : Int :=
  let r := findIdxChar c cs.reverse
  if r < 0 then -1 else (cs.length : Int) - 1 - r

/-- Candidate JSON text located as in the source: from the first opening
square bracket through the last closing square bracket, provided the
first exists and the slice is non-empty. -/
def bracketSlice (cs : List Char) : Option (List Char) :=
  let start := findIdxChar '[' cs
  let stop := rfindIdxChar ']' cs + 1
  if 0 ≤ start ∧ start < stop then some ((cs.drop start.toNat).take (stop - start).toNat)
  else none

/-- Validated operations the reconciliation applier receives: the
dictionaries the loop builds, as a tagged type. The key field of either
kind is whatever JSON value the element carried. -/
inductive MemOp where
  | delete (key : JsonValue)
  | update (key : JsonValue) (value : JsonValue)

/-- Equality of a JSON value with a Python string under Python
semantics: only a JSON string can equal a string. -/
def isStrEq (v : JsonValue) (s : String) : Bool :=
  match v with
  | .str t => t == s
  | _ => false

/-- Membership of the value in the placeholder denylist of the
validator. -/
def isDenied (v : JsonValue) : Bool :=
  match v with
  | .str s => s == "什麼" || s == "誰" || s == "哪"
  | _ => false

/-- The parser-stage guard of the loop: keep an element only when it is
an object carrying a key field. -/
def keepElem (el : JsonValue) : Bool :=
  match el with
  | .obj fs => (lookupField fs "key").isSome
  | _ => false

/-- Validation and classification of one parsed element, exactly the
body of the loop: drop non-objects and objects without a key; the action
defaults to update; a delete is emitted unconditionally; an update
requires a value that is truthy, renders to fewer than 100 characters and
is not denylisted. -/
def classifyOne (el : JsonValue) : List MemOp :=
  match el with
  | .obj fs =>
    match lookupField fs "key" with
    | some key =>
      let action := (lookupField fs "action").getD (JsonValue.str "update")
      if isStrEq action "delete" then [MemOp.delete key]
      else if isStrEq action "update" then
        match lookupField fs "value" with
        | some v =>
          if pyTruthy v && decide ((pyStr v).length < 100) && !isDenied v then
            [MemOp.update key v]
          else []
        | none => []
      else []
    | none => []
  | _ => []

/-- Validator over the whole parsed element sequence. -/
def validateOps (els : List JsonValue) : List MemOp := els.flatMap classifyOne

/-- The extraction core applied to the completion text: strip, remove a
reasoning preamble, locate the bracketed slice, parse it, and validate.
Any failure yields the empty operation list, mirroring the enclosing
exception handler. A parse result that is not an array makes the loop
body run over non-dictionary items or raise, both of which end as the
empty list. -/
def extractOps (content : String) : List MemOp :=
  let rem := thinkStrip (pyStrip content.data)
  match bracketSlice rem with
  | none => []
  | some js =>
    match jsonLoadsChars js with
    | some (.arr els) => validateOps els
    | some _ => []
    | none => []

/-- Response-parser stage on its own (the specification's component 4.2):
the parsed array elements that are objects carrying a key field. -/
def parserOut (content : String) : List JsonValue :=
  match bracketSlice (thinkStrip (pyStrip content.data)) with
  | none => []
  | some js =>
    match jsonLoadsChars js with
    | some (.arr els) => els.filter keepElem
    | some _ => []
    | none => []

/-- Failure of the gateway call before any completion text is available:
a timeout, a connection error, or a response whose envelope lacks the
expected fields. All are caught by the handler of the extraction
function. -/
inductive GatewayErr where
  | timeout
  | connectionFailed
  | badEnvelope
deriving DecidableEq

/-- The extraction function seen from its callers: a failed call and a
non-200 status yield no operations; a 200 response has its content
processed. -/
def extractFromGateway (gw : Except GatewayErr (Nat × String)) : List MemOp :=
  match gw with
  | .error _ => []
  | .ok (status, content) => if status == 200 then extractOps content else []

/-- One row of the chat_memory table. The value column holds the
serialized JSON text. -/
structure MemRecord where
  id : Nat
  userId : String
  key : String
  value : String
  memoryType : String
  createdAt : Nat
  updatedAt : Nat
deriving DecidableEq

/-- The chat_memory table plus a source of fresh identifiers standing
for uuid4. -/
structure MemStore where
  records : List MemRecord
  nextId : Nat
deriving DecidableEq

/-- The WHERE clause of the fuzzy delete: the row belongs to the user
and its key or serialized value matches the pattern under ILIKE. -/
def rowMatches (pat uid : String) (r : MemRecord) : Bool :=
  r.userId == uid && (ilike pat r.key || ilike pat r.value)

/-- The uniqueness triple of the store. -/
def isTriple (uid k mt : String) (r : MemRecord) : Bool :=
  r.userId == uid && r.key == k && r.memoryType == mt

/-- The existence check of the upsert: first row for the user, key and
the long_term partition. -/
def findLongTerm (recs : List MemRecord) (uid k : String) : Option MemRecord :=
  (recs.filter (isTriple uid k "long_term")).head?

/-- Store-level failures: the pool cannot be acquired, or a statement
parameter has the wrong type for its column. -/
inductive StoreErr where
  | unavailable
  | badParam
deriving DecidableEq

/-- One operation against the store, as the loop body performs it. A
delete removes every row of the user whose key or serialized value
matches percent-wrapped str(key) under ILIKE and reports the keys of the
removed rows. An update looks up the (user, key, long_term) row,
overwrites its value when present, inserts a fresh row otherwise, and
reports the key; a non-string key is rejected by the driver when bound
to the text column. -/
def applyOp (uid : String) (now : Nat) (st : MemStore) (op : MemOp) :
    Except StoreErr (MemStore × List String × List String) :=
  match op with
  | .delete key =>
    let pat := "%" ++ pyStr key ++ "%"
    let gone := st.records.filter (rowMatches pat uid)
    let kept := st.records.filter (fun r => !rowMatches pat uid r)
    .ok ({ st with records := kept }, [], gone.map (fun r => r.key))
  | .update key v =>
    match key with
    | .str k =>
      let vjson := jsonDumps v
      match findLongTerm st.records uid k with
      | some ex =>
        .ok ({ st with
          records := st.records.map (fun r =>
            if r.id == ex.id then { r with value := vjson, updatedAt := now } else r) },
          [k], [])
      | none =>
        let newRec : MemRecord :=
          { id := st.nextId, userId := uid, key := k, value := vjson,
            memoryType := "long_term", createdAt := now, updatedAt := now }
        .ok ({ records := st.records ++ [newRec], nextId := st.nextId + 1 }, [k], [])
    | _ => .error .badParam

/-- Sequential application of the validated operations, accumulating the
applied keys and the deleted keys in order. -/
def applyOps (uid : String) (now : Nat) : MemStore → List MemOp →
    Except StoreErr (MemStore × List String × List String)
  | st, [] => .ok (st, [], [])
  | st, op :: ops =>
    match applyOp uid now st op with
    | .error e => .error e
    | .ok (st1, a1, d1) =>
      match applyOps uid now st1 ops with
      | .error e => .error e
      | .ok (st2, a2, d2) => .ok (st2, a1 ++ a2, d1 ++ d2)

/-- The structured result of the detect endpoint. -/
structure DetectResult where
  detected : List MemOp
  applied : List String
  deleted : List String
  message : String

/-- Human-readable summary built from the applied and deleted lists. -/
def buildMsg (applied deleted : List String) : String :=
  let p1 : List String :=
    if applied.isEmpty then [] else ["更新了 " ++ toString applied.length ++ " 筆記憶"]
  let p2 : List String :=
    if deleted.isEmpty then [] else ["刪除了 " ++ toString deleted.length ++ " 筆記憶"]
  let parts := p1 ++ p2
  String.intercalate "; " (if parts.isEmpty then ["沒有執行任何操作"] else parts)

/-- The detect-and-apply endpoint after extraction: an empty detection
returns early without touching the store; with operations detected and
the apply flag set, the pool is acquired (failing the request when the
store is unreachable) and the operations applied; with the flag clear
nothing is mutated and the reported lists are empty. -/
def detectAndApply (detected : List MemOp) (applyFlag storeOk : Bool)
    (st : MemStore) (uid : String) (now : Nat) :
    Except StoreErr (DetectResult × MemStore) :=
  if detected.isEmpty then
    .ok ({ detected := [], applied := [], deleted := [],
           message := "No memory operations detected" }, st)
  else if applyFlag then
    if !storeOk then .error .unavailable
    else
      match applyOps uid now st detected with
      | .error e => .error e
      | .ok (st', applied, deleted) =>
        .ok ({ detected := detected, applied := applied, deleted := deleted,
               message := buildMsg applied deleted }, st')
  else
    .ok ({ detected := detected, applied := [], deleted := [],
           message := buildMsg [] [] }, st)

/-- Projection of the endpoint used by the concrete scenarios: the result
and final store of a successful request. -/
def runDetect (detected : List MemOp) (applyFlag storeOk : Bool)
    (st : MemStore) (uid : String) (now : Nat) : DetectResult × MemStore :=
  match detectAndApply detected applyFlag storeOk st uid now with
  | .ok r => r
  | .error _ => ({ detected := [], applied := [], deleted := [], message := "" }, st)

/-- Build a record at time zero. -/
def mkRec (i : Nat) (uid k v mt : String) : MemRecord :=
  { id := i, userId := uid, key := k, value := v, memoryType := mt,
    createdAt := 0, updatedAt := 0 }

/-- The store of the bilingual scenario: one long_term record holding
favorite_food with serialized value "pizza". -/
def c3Store : MemStore :=
  { records := [mkRec 0 "u1" "favorite_food" "\"pizza\"" "long_term"], nextId := 1 }

/-- The validated operations of the bilingual scenario. -/
def c3Ops : List MemOp :=
  [MemOp.delete (JsonValue.str "披薩"), MemOp.delete (JsonValue.str "pizza"),
   MemOp.update (JsonValue.str "favorite_food") (JsonValue.str "牛排")]

/-- A store whose only record has a key the ILIKE underscore wildcard
reaches but plain substring containment does not. -/
def c1Store : MemStore :=
  { records := [mkRec 0 "u1" "userxname" "\"v\"" "long_term"], nextId := 1 }

/-- A small store used to instantiate the universally quantified
theorems. -/
def wStore : MemStore :=
  { records := [mkRec 0 "u1" "favorite_food" "\"pizza\"" "long_term"], nextId := 1 }

/-- Every tails list ends with the empty list, so an emptiness test
succeeds somewhere. -/
theorem tails_any_isEmpty (l : List Nat) : l.tails.any (fun t => t.isEmpty) = true := by
  induction l with
  | nil => rfl
  | cons a l ih => simp [ih]

/-- The tails list is never empty, so a constant-true test succeeds. -/
theorem tails_any_true (l : List Nat) : l.tails.any (fun _ => true) = true := by
  cases l <;> simp

/-- Congruence for any over a pointwise-equal predicate. -/
theorem any_congr_mem {l : List α} {f g : α → Bool} (h : ∀ x ∈ l, f x = g x) :
    l.any f = l.any g := by
  induction l with
  | nil => rfl
  | cons a l ih =>
    simp only [List.any_cons, h a (by simp)]
    rw [ih (fun x hx => h x (by simp [hx]))]

/-- Unfolding of the pattern matcher at a leading percent. -/
theorem likeMatch_pct (p s : List Nat) :
    likeMatch (37 :: p) s = s.tails.any (fun t => likeMatch p t) := by
  rw [likeMatch.eq_def]
  simp

/-- Unfolding of the pattern matcher at a leading literal against an
empty subject. -/
theorem likeMatch_lit_nil (c : Nat) (p : List Nat) (h1 : c ≠ 37) (h2 : c ≠ 95) (h3 : c ≠ 92) :
    likeMatch (c :: p) [] = false := by
  rw [likeMatch.eq_def]
  simp [h1, h2, h3]

/-- Unfolding of the pattern matcher at a leading literal against a
non-empty subject. -/
theorem likeMatch_lit_cons (c : Nat) (p : List Nat) (a : Nat) (s : List Nat)
    (h1 : c ≠ 37) (h2 : c ≠ 95) (h3 : c ≠ 92) :
    likeMatch (c :: p) (a :: s) = (a == c && likeMatch p s) := by
  rw [likeMatch.eq_def]
  simp [h1, h2, h3]

/-- A single percent pattern accepts every subject. -/
theorem likeMatch_single_pct (s : List Nat) : likeMatch [37] s = true := by
  have h2 : s.tails.any (fun t => likeMatch [] t) = s.tails.any (fun t => t.isEmpty) :=
    any_congr_mem (fun x _ => by simp [likeMatch])
  rw [likeMatch_pct, h2]
  exact tails_any_isEmpty s

/-- A double percent pattern accepts every subject. -/
theorem likeMatch_pct_pct (s : List Nat) : likeMatch [37, 37] s = true := by
  have h2 : s.tails.any (fun t => likeMatch [37] t) = s.tails.any (fun _ => true) :=
    any_congr_mem (fun x _ => likeMatch_single_pct x)
  rw [show ([37, 37] : List Nat) = 37 :: [37] from rfl, likeMatch_pct, h2]
  exact tails_any_true s

/-- A wildcard-free pattern followed by a single percent accepts exactly
the subjects it literally prefixes. -/
theorem likeMatch_lit_pct (t : List Nat) (ht : t.all (fun n => n != 37 && n != 95 && n != 92))
    (s : List Nat) : likeMatch (t ++ [37]) s = litPre t s := by
  induction t generalizing s with
  | nil => simp [likeMatch_single_pct, litPre]
  | cons c t ih =>
    have hc : c ≠ 37 ∧ c ≠ 95 ∧ c ≠ 92 := by
      have h := ht
      simp only [List.all_cons, Bool.and_eq_true, bne_iff_ne, ne_eq] at h
      exact ⟨h.1.1.1, h.1.1.2, h.1.2⟩
    have ht' : t.all (fun n => n != 37 && n != 95 && n != 92) := by
      have h := ht
      simp only [List.all_cons, Bool.and_eq_true] at h
      exact h.2
    show likeMatch (c :: (t ++ [37])) s = litPre (c :: t) s
    cases s with
    | nil => rw [likeMatch_lit_nil c _ hc.1 hc.2.1 hc.2.2]; rfl
    | cons a s' =>
      rw [likeMatch_lit_cons c _ a s' hc.1 hc.2.1 hc.2.2, ih ht']
      rfl

/-- The percent-wrapped form of a wildcard-free pattern accepts exactly
the subjects in which the pattern occurs as a substring. -/
theorem likeMatch_wrap (t : List Nat) (ht : t.all (fun n => n != 37 && n != 95 && n != 92))
    (s : List Nat) : likeMatch (37 :: (t ++ [37])) s = subOccurs t s := by
  have h2 : s.tails.any (fun u => likeMatch (t ++ [37]) u) = s.tails.any (fun u => litPre t u) :=
    any_congr_mem (fun x _ => likeMatch_lit_pct t ht x)
  rw [likeMatch_pct, h2]
  rfl

/-- Lower-casing preserves freedom from LIKE metacharacters. -/
theorem lowerN_keeps_plain (n : Nat) (h : (n != 37 && n != 95 && n != 92) = true) :
    (lowerN n != 37 && lowerN n != 95 && lowerN n != 92) = true := by
  simp only [Bool.and_eq_true, bne_iff_ne, ne_eq] at h ⊢
  unfold lowerN
  split <;> omega

/-- ILIKE with a percent-wrapped wildcard-free term is exactly
case-insensitive substring containment. -/
theorem ilike_wrap (term s : String) (hw : noWildcards term = true) :
    ilike ("%" ++ term ++ "%") s = specContainsCI term s := by
  have hdata : ("%" ++ term ++ "%").data = '%' :: term.data ++ ['%'] := rfl
  have hcodes : (strCodes ("%" ++ term ++ "%")).map lowerN =
      37 :: ((lowerCodes term) ++ [37]) := by
    simp [strCodes, lowerCodes, hdata, lowerN]
  have hplain : (lowerCodes term).all (fun n => n != 37 && n != 95 && n != 92) = true := by
    unfold noWildcards at hw
    unfold lowerCodes
    rw [List.all_map]
    exact List.all_eq_true.mpr
      (fun n hn => lowerN_keeps_plain n (List.all_eq_true.mp hw n hn))
  unfold ilike specContainsCI
  rw [hcodes]
  exact likeMatch_wrap _ hplain _

/-- Claim C10: a Delete whose key is the empty string builds the pattern
of two percent signs, which matches every record, so applying it removes
the entire memory store of that user across all memory types, reporting
every removed key, and leaves other users' records alone. -/
theorem C10_empty_key_delete_wipes_user (st : MemStore) (uid : String) (now : Nat) :
    applyOp uid now st (MemOp.delete (JsonValue.str "")) =
      Except.ok ({ st with records := st.records.filter (fun r => !(r.userId == uid)) }, [],
        (st.records.filter (fun r => r.userId == uid)).map (fun r => r.key)) := by
  have hrow : ∀ r : MemRecord,
      rowMatches ("%" ++ pyStr (JsonValue.str "") ++ "%") uid r = (r.userId == uid) := by
    intro r
    unfold rowMatches
    rw [show ("%" ++ pyStr (JsonValue.str "") ++ "%") = "%%" from rfl]
    unfold ilike
    rw [show (strCodes "%%").map lowerN = [37, 37] from rfl]
    rw [likeMatch_pct_pct, likeMatch_pct_pct]
    simp
  simp only [applyOp]
  rw [List.filter_congr (fun r _ => congrArg (fun b => !b) (hrow r)),
    List.filter_congr (fun r _ => hrow r)]

/-- Claim C4: deleting with the same non-empty search term twice leaves
the store as after one application, the second pass removes nothing, and
a delete matching no record is a successful no-op. -/
theorem C4_idempotent_delete (st : MemStore) (uid k : String) (now : Nat) (hk : k ≠ "") :
    ∃ st1 d1,
      applyOp uid now st (MemOp.delete (JsonValue.str k)) = Except.ok (st1, [], d1) ∧
      applyOp uid now st1 (MemOp.delete (JsonValue.str k)) = Except.ok (st1, [], []) ∧
      (st.records.all (fun r => !rowMatches ("%" ++ k ++ "%") uid r) = true →
        st1 = st ∧ d1 = []) := by
  have h0 : applyOp uid now st (MemOp.delete (JsonValue.str k)) =
      Except.ok ({ st with records :=
          st.records.filter (fun r => !rowMatches ("%" ++ k ++ "%") uid r) }, [],
        (st.records.filter (rowMatches ("%" ++ k ++ "%") uid)).map (fun r => r.key)) := rfl
  refine ⟨{ st with records :=
      st.records.filter (fun r => !rowMatches ("%" ++ k ++ "%") uid r) },
    (st.records.filter (rowMatches ("%" ++ k ++ "%") uid)).map (fun r => r.key),
    h0, ?_, ?_⟩
  · simp only [applyOp]
    have h1 : (st.records.filter (fun r => !rowMatches ("%" ++ k ++ "%") uid r)).filter
        (rowMatches ("%" ++ pyStr (JsonValue.str k) ++ "%") uid) = [] := by
      rw [show ("%" ++ pyStr (JsonValue.str k) ++ "%") = ("%" ++ k ++ "%") from rfl]
      rw [List.filter_filter]
      simp
    have h2 : (st.records.filter (fun r => !rowMatches ("%" ++ k ++ "%") uid r)).filter
        (fun r => !rowMatches ("%" ++ pyStr (JsonValue.str k) ++ "%") uid r) =
        st.records.filter (fun r => !rowMatches ("%" ++ k ++ "%") uid r) := by
      rw [show ("%" ++ pyStr (JsonValue.str k) ++ "%") = ("%" ++ k ++ "%") from rfl]
      rw [List.filter_filter]
      simp
    rw [h1, h2]
    rfl
  · intro hall
    have h3 : st.records.filter (fun r => !rowMatches ("%" ++ k ++ "%") uid r) = st.records := by
      rw [List.filter_eq_self]
      intro a ha
      exact List.all_eq_true.mp hall a ha
    have h4 : st.records.filter (rowMatches ("%" ++ k ++ "%") uid) = [] := by
      rw [List.filter_eq_nil_iff]
      intro a ha
      have := List.all_eq_true.mp hall a ha
      simp at this
      simp [this]
    constructor
    · rw [h3]
    · rw [h4]
      rfl

/-- Witness for C4 at a concrete store and term. -/
theorem C4_idempotent_delete_witness :
    ∃ st1 d1,
      applyOp "u1" 0 wStore (MemOp.delete (JsonValue.str "zzz")) = Except.ok (st1, [], d1) ∧
      applyOp "u1" 0 st1 (MemOp.delete (JsonValue.str "zzz")) = Except.ok (st1, [], []) ∧
      (wStore.records.all (fun r => !rowMatches ("%" ++ "zzz" ++ "%") "u1" r) = true →
        st1 = wStore ∧ d1 = []) :=
  C4_idempotent_delete wStore "u1" "zzz" 0 (by decide)

/-- Field lookup skips a leading member with a different name. -/
theorem lookup_cons_ne (nm k : String) (u : JsonValue) (fs : List (String × JsonValue))
    (h : (nm == k) = false) : lookupField ((nm, u) :: fs) k = lookupField fs k := by
  simp [lookupField, List.find?_cons, h]

/-- Field lookup finds a leading member with the requested name. -/
theorem lookup_cons_eq (k : String) (u : JsonValue) (fs : List (String × JsonValue)) :
    lookupField ((k, u) :: fs) k = some u := by
  simp [lookupField, List.find?_cons]

/-- Counterexample to claim C6: a delete element whose key is the empty
string is not rejected; the validator emits the delete operation. -/
theorem C6_counterexample :
    classifyOne (JsonValue.obj [("action", JsonValue.str "delete"), ("key", JsonValue.str "")]) =
      [MemOp.delete (JsonValue.str "")] ∧
    classifyOne (JsonValue.obj [("action", JsonValue.str "delete"), ("key", JsonValue.str "")]) ≠
      [] :=
  ⟨rfl, fun h => List.cons_ne_nil _ _ h⟩

/-- Claim C6 amended: a delete element with a key field present always
emits Delete of that key, whether or not the key is empty; elements with
an action other than update and delete emit nothing; an element without
an action field behaves exactly as one whose action is update. -/
theorem C6_amended (fs : List (String × JsonValue)) (key : JsonValue)
    (hk : lookupField fs "key" = some key) :
    (lookupField fs "action" = some (JsonValue.str "delete") →
      classifyOne (JsonValue.obj fs) = [MemOp.delete key]) ∧
    (∀ act : JsonValue, lookupField fs "action" = some act → isStrEq act "delete" = false →
      isStrEq act "update" = false → classifyOne (JsonValue.obj fs) = []) ∧
    (lookupField fs "action" = none →
      classifyOne (JsonValue.obj fs) =
        classifyOne (JsonValue.obj (("action", JsonValue.str "update") :: fs))) := by
  refine ⟨?_, ?_, ?_⟩
  · intro ha
    simp [classifyOne, hk, ha, isStrEq]
  · intro act ha h1 h2
    simp [classifyOne, hk, ha, h1, h2]
  · intro ha
    have hk2 : lookupField (("action", JsonValue.str "update") :: fs) "key" = some key := by
      rw [lookup_cons_ne "action" "key" _ fs (by decide)]
      exact hk
    have hv2 : lookupField (("action", JsonValue.str "update") :: fs) "value" =
        lookupField fs "value" :=
      lookup_cons_ne "action" "value" _ fs (by decide)
    have ha2 : lookupField (("action", JsonValue.str "update") :: fs) "action" =
        some (JsonValue.str "update") := lookup_cons_eq "action" _ fs
    simp [classifyOne, hk, hk2, ha, ha2, hv2, isStrEq]

/-- Witness for C6 amended at a concrete element. -/
theorem C6_amended_witness :
    classifyOne (JsonValue.obj [("key", JsonValue.str "x"), ("action", JsonValue.str "delete")]) =
      [MemOp.delete (JsonValue.str "x")] :=
  (C6_amended [("key", JsonValue.str "x"), ("action", JsonValue.str "delete")]
    (JsonValue.str "x") rfl).1 rfl

/-- Counterexample to claim C3: in the bilingual scenario the deleted
list reports the key column of the removed record, favorite_food, not
the matched value pizza. -/
theorem C3_counterexample :
    (runDetect c3Ops true true c3Store "u1" 1).1.deleted = ["favorite_food"] ∧
    (runDetect c3Ops true true c3Store "u1" 1).1.deleted ≠ ["pizza"] := by
  exact ⟨rfl, by decide⟩

/-- Claim C3 amended: the bilingual scenario succeeds, reports
updated=[favorite_food] and deleted=[favorite_food] (the key of the
record removed by the pizza delete), and the final store holds one
record favorite_food whose value is the serialization of the new
value. -/
theorem C3_amended_scenario :
    detectAndApply c3Ops true true c3Store "u1" 1 =
      Except.ok (runDetect c3Ops true true c3Store "u1" 1) ∧
    (runDetect c3Ops true true c3Store "u1" 1).1.applied = ["favorite_food"] ∧
    (runDetect c3Ops true true c3Store "u1" 1).1.deleted = ["favorite_food"] ∧
    (runDetect c3Ops true true c3Store "u1" 1).2.records.map (fun r => (r.key, r.value)) =
      [("favorite_food", jsonDumps (JsonValue.str "牛排"))] ∧
    (runDetect c3Ops true true c3Store "u1" 1).2.records.map (fun r => r.memoryType) =
      ["long_term"] :=
  ⟨rfl, rfl, rfl, rfl, rfl⟩

/-- Counterexample to claim C1: the validated delete with search term
user_name removes the record with key userxname, although the term is
not a case-insensitive substring of either the key or the value; the
underscore acts as an ILIKE wildcard. -/
theorem C1_counterexample :
    applyOp "u1" 0 c1Store (MemOp.delete (JsonValue.str "user_name")) =
      Except.ok ({ records := [], nextId := 1 }, [], ["userxname"]) ∧
    specContainsCI "user_name" "userxname" = false ∧
    specContainsCI "user_name" "\"v\"" = false :=
  ⟨rfl, rfl, rfl⟩

/-- Claim C1 amended: for a search term free of the LIKE metacharacters
(percent, underscore, backslash), the applied delete removes exactly the
records of that user whose key or serialized value contains the term as
a case-insensitive substring, across all memory types, reporting their
keys; all other records, including every record of other users, are kept
unchanged and in order. -/
theorem C1_amended_fuzzy_delete (st : MemStore) (uid term : String) (now : Nat)
    (hw : noWildcards term = true) :
    applyOp uid now st (MemOp.delete (JsonValue.str term)) =
      Except.ok ({ st with records := st.records.filter (fun r =>
          !(r.userId == uid && (specContainsCI term r.key || specContainsCI term r.value))) },
        [],
        (st.records.filter (fun r =>
          r.userId == uid && (specContainsCI term r.key || specContainsCI term r.value))).map
          (fun r => r.key)) := by
  have hrow : ∀ r : MemRecord, rowMatches ("%" ++ pyStr (JsonValue.str term) ++ "%") uid r =
      (r.userId == uid && (specContainsCI term r.key || specContainsCI term r.value)) := by
    intro r
    unfold rowMatches
    rw [show pyStr (JsonValue.str term) = term from rfl]
    rw [ilike_wrap term r.key hw, ilike_wrap term r.value hw]
  simp only [applyOp]
  rw [List.filter_congr (fun r _ => congrArg (fun b => !b) (hrow r)),
    List.filter_congr (fun r _ => hrow r)]

/-- Witness for C1 amended: deleting pizza from the witness store
removes its one matching record and reports its key. -/
theorem C1_amended_witness :
    applyOp "u1" 0 wStore (MemOp.delete (JsonValue.str "pizza")) =
      Except.ok ({ records := [], nextId := 1 }, [], ["favorite_food"]) :=
  (C1_amended_fuzzy_delete wStore "u1" "pizza" 0 (by decide)).trans rfl

/-- Claim C8: with the apply flag clear the endpoint always succeeds,
leaves the store untouched, and reports empty applied and deleted lists,
whatever was detected and whether or not the store is reachable. -/
theorem C8_dry_run (detected : List MemOp) (storeOk : Bool) (st : MemStore)
    (uid : String) (now : Nat) :
    ∃ res, detectAndApply detected false storeOk st uid now = Except.ok (res, st) ∧
      res.applied = [] ∧ res.deleted = [] := by
  unfold detectAndApply
  by_cases h : detected.isEmpty
  · simp [h]
  · simp [h]

/-- Claim C5: an update element (explicit or defaulted action) with a key
emits nothing when the value field is absent, falsy, rendered to 100 or
more characters, or denylisted; otherwise it emits exactly one Update
with that key and value. Emptiness of the value is formalized as Python
falsiness, which on the string values the model produces is exactly
emptiness. -/
theorem C5_update_validation (fs : List (String × JsonValue)) (key : JsonValue)
    (hk : lookupField fs "key" = some key)
    (ha : lookupField fs "action" = none ∨
      lookupField fs "action" = some (JsonValue.str "update")) :
    (lookupField fs "value" = none → classifyOne (JsonValue.obj fs) = []) ∧
    (∀ v, lookupField fs "value" = some v →
      ((pyTruthy v = false ∨ 100 ≤ (pyStr v).length ∨ isDenied v = true) →
          classifyOne (JsonValue.obj fs) = []) ∧
      (pyTruthy v = true → (pyStr v).length < 100 → isDenied v = false →
          classifyOne (JsonValue.obj fs) = [MemOp.update key v])) := by
  have hact : ((lookupField fs "action").getD (JsonValue.str "update")) =
      JsonValue.str "update" := by
    rcases ha with h | h <;> simp [h]
  constructor
  · intro hv
    simp [classifyOne, hk, hact, isStrEq, hv]
  · intro v hv
    constructor
    · intro hbad
      rcases hbad with hb | hb | hb
      · simp [classifyOne, hk, hact, isStrEq, hv, hb]
      · have hlen : decide ((pyStr v).length < 100) = false := by
          simp
          omega
        simp [classifyOne, hk, hact, isStrEq, hv, hlen]
      · simp [classifyOne, hk, hact, isStrEq, hv, hb]
    · intro h1 h2 h3
      have hlen : decide ((pyStr v).length < 100) = true := by
        simp [h2]
      simp [classifyOne, hk, hact, isStrEq, hv, h1, h3, hlen]

/-- Witness for C5 at a concrete accepted element. -/
theorem C5_update_validation_witness :
    classifyOne (JsonValue.obj [("key", JsonValue.str "k"), ("value", JsonValue.str "v")]) =
      [MemOp.update (JsonValue.str "k") (JsonValue.str "v")] :=
  ((C5_update_validation [("key", JsonValue.str "k"), ("value", JsonValue.str "v")]
      (JsonValue.str "k") rfl (Or.inl rfl)).2 (JsonValue.str "v") rfl).2 rfl (by decide) rfl

/-- The loop and the parser-stage guard commute: validating all elements
equals keeping the objects with a key field and classifying those. -/
theorem validate_filter (els : List JsonValue) :
    validateOps els = (els.filter keepElem).flatMap classifyOne := by
  induction els with
  | nil => rfl
  | cons el els ih =>
    by_cases h : keepElem el = true
    · simp only [validateOps, List.flatMap_cons, List.filter_cons, h, if_true]
      rw [show validateOps els = els.flatMap classifyOne from rfl] at ih
      simp [ih]
    · have hz : classifyOne el = [] := by
        cases el with
        | obj fsx =>
          cases hcase : lookupField fsx "key" with
          | none => simp [classifyOne, hcase]
          | some kk => exact absurd (by simp [keepElem, hcase]) h
        | null => rfl
        | bool b => rfl
        | num n => rfl
        | fnum neg sig x => rfl
        | fnan => rfl
        | finf b => rfl
        | str s => rfl
        | arr xs => rfl
      have h' : keepElem el = false := by
        cases hkeep : keepElem el with
        | true => exact absurd hkeep h
        | false => rfl
      simp only [validateOps, List.flatMap_cons, List.filter_cons, h', if_false, hz,
        List.nil_append]
      rw [show validateOps els = els.flatMap classifyOne from rfl] at ih
      simp [ih]

/-- Claim C7: the response parser is total and never raises. After
discarding everything through the last closing reasoning delimiter and
stripping, if the remaining text has a bracketed slice that parses as a
JSON array the parser stage returns exactly the array's elements minus
non-objects and objects without a key field, and the whole extraction is
the classification of those kept elements; when the slice is absent or
fails to parse, both the parser stage and the extraction return the
empty sequence. -/
theorem C7_parser_robustness (text : String) :
    (∀ js els, bracketSlice (thinkStrip (pyStrip text.data)) = some js →
      jsonLoadsChars js = some (JsonValue.arr els) →
      parserOut text = els.filter keepElem ∧
      extractOps text = (els.filter keepElem).flatMap classifyOne) ∧
    (bracketSlice (thinkStrip (pyStrip text.data)) = none →
      parserOut text = [] ∧ extractOps text = []) ∧
    (∀ js, bracketSlice (thinkStrip (pyStrip text.data)) = some js →
      jsonLoadsChars js = none → parserOut text = [] ∧ extractOps text = []) := by
  refine ⟨?_, ?_, ?_⟩
  · intro js els hbs hjl
    constructor
    · simp [parserOut, hbs, hjl]
    · simp [extractOps, hbs, hjl, validate_filter]
  · intro hbs
    exact ⟨by simp [parserOut, hbs], by simp [extractOps, hbs]⟩
  · intro js hbs hjl
    exact ⟨by simp [parserOut, hbs, hjl], by simp [extractOps, hbs, hjl]⟩

/-- Witness for C7 on a concrete noisy response: a reasoning preamble, a
think delimiter, then an array holding an object with a key and a
fractional value, an object without a key, and a bare number; the two
keyless elements are dropped by the parser stage and the float-valued
update survives validation. -/
theorem C7_parser_robustness_witness :
    parserOut
        "preamble</think> [\x7b\"key\": \"a\", \"value\": 1.5\x7d, \x7b\"x\": 0\x7d, 5]" =
      [JsonValue.obj [("key", JsonValue.str "a"), ("value", JsonValue.fnum false [1, 5] 0)]] ∧
    extractOps
        "preamble</think> [\x7b\"key\": \"a\", \"value\": 1.5\x7d, \x7b\"x\": 0\x7d, 5]" =
      [MemOp.update (JsonValue.str "a") (JsonValue.fnum false [1, 5] 0)] :=
  (C7_parser_robustness
      "preamble</think> [\x7b\"key\": \"a\", \"value\": 1.5\x7d, \x7b\"x\": 0\x7d, 5]").1
    _ _ rfl rfl

/-- Claim C9: gateway failures (exceptions and non-2xx statuses) and
malformed or unparseable responses are recovered as zero detected
operations and never become request failures, while an unreachable store
during an apply with detected operations is surfaced as a request
failure, never reported as success. -/
theorem C9_failure_policy (e : GatewayErr) (s : Nat) (c : String) (hs : s < 200 ∨ 299 < s)
    (c2 : String) (h2 : bracketSlice (thinkStrip (pyStrip c2.data)) = none)
    (c3txt : String) (js : List Char)
    (h3 : bracketSlice (thinkStrip (pyStrip c3txt.data)) = some js)
    (h3b : jsonLoadsChars js = none)
    (detected : List MemOp) (hd : detected ≠ []) (st : MemStore) (uid : String) (now : Nat) :
    extractFromGateway (Except.error e) = [] ∧
    extractFromGateway (Except.ok (s, c)) = [] ∧
    extractFromGateway (Except.ok (200, c2)) = [] ∧
    extractFromGateway (Except.ok (200, c3txt)) = [] ∧
    detectAndApply detected true false st uid now = Except.error StoreErr.unavailable := by
  have hs' : (s == 200) = false := by
    rcases hs with h | h <;> simp <;> omega
  have hde : detected.isEmpty = false := by
    cases detected with
    | nil => exact absurd rfl hd
    | cons a l => rfl
  refine ⟨rfl, ?_, ?_, ?_, ?_⟩
  · simp [extractFromGateway, hs']
  · simp [extractFromGateway, extractOps, h2]
  · simp [extractFromGateway, extractOps, h3, h3b]
  · simp [detectAndApply, hde]

/-- Witness for C9 at concrete failures. -/
theorem C9_failure_policy_witness :
    extractFromGateway (Except.error GatewayErr.timeout) = [] ∧
    extractFromGateway (Except.ok (500, "x")) = [] ∧
    extractFromGateway (Except.ok (200, "no array")) = [] ∧
    extractFromGateway (Except.ok (200, "[oops]")) = [] ∧
    detectAndApply [MemOp.delete (JsonValue.str "x")] true false wStore "u1" 0 =
      Except.error StoreErr.unavailable :=
  C9_failure_policy GatewayErr.timeout 500 "x" (Or.inr (by omega)) "no array" rfl
    "[oops]" "[oops]".data rfl rfl
    [MemOp.delete (JsonValue.str "x")] (fun h => List.cons_ne_nil _ _ h) wStore "u1" 0

